import Mathlib

/-
Verification of the package-spec classifier and configuration store of
mcp-python-bootstrap (src/scripts/mcp_config.py), via a shallow embedding
over lists of characters.  Strings are modelled as `List Char`; the
optional local-file probe and the configuration file are modelled by small
inductive state types.
-/

set_option maxRecDepth 4000

/-- Double-quote character, written by code point to keep sources plain. -/
def quoteD : Char := Char.ofNat 34

/-- Single-quote character, written by code point to keep sources plain. -/
def quoteS : Char := Char.ofNat 39

/-- Substring test: does `pat` occur contiguously inside the second list?
Models the Python `in` operator on strings. -/
def containsSeq (pat : List Char) : List Char → Bool
  | [] => pat.isEmpty
  | c :: rs => pat.isPrefixOf (c :: rs) || containsSeq pat rs

/-- Embedding of `detect_package_type` (src/scripts/mcp_config.py lines 22-29):
`git+` prefix yields "git"; a leading `/`, `./`, `../` or `-e` yields "local";
everything else yields "pypi". -/
def detect_package_type (package_spec : List Char) : String :=
  if List.isPrefixOf "git+".data package_spec then "git"
  else if List.isPrefixOf "/".data package_spec
       || List.isPrefixOf "./".data package_spec
       || List.isPrefixOf "../".data package_spec
       || List.isPrefixOf "-e".data package_spec then "local"
  else "pypi"

/-- Capture of the character class run in the FastMCP regex: the characters
before the next quote, or `none` when no closing quote follows. -/
def takeUntilQuote : List Char → Option (List Char)
  | [] => none
  | c :: rs =>
    if c = quoteD || c = quoteS then some []
    else (takeUntilQuote rs).map (fun l => c :: l)

/-- Literal text of the FastMCP constructor-call pattern head. -/
def fmPat : List Char := "FastMCP(".data

/-- Embedding of the search for the regex FastMCP-open-paren-quote-capture-quote
(src/scripts/mcp_config.py lines 39-40): leftmost occurrence of `FastMCP(`
followed by a quote; the capture runs to the next quote of either kind. -/
def fastmcp_scan : List Char → Option (List Char)
  | [] => none
  | c :: rs =>
    if fmPat.isPrefixOf (c :: rs) then
      match (c :: rs).drop fmPat.length with
      | q :: rest =>
        if q = quoteD || q = quoteS then
          match takeUntilQuote rest with
          | some cap => some cap
          | none => fastmcp_scan rs
        else fastmcp_scan rs
      | [] => fastmcp_scan rs
    else fastmcp_scan rs

/-- Does a remainder string satisfy the optional dot-git group followed by an
optional hash-fragment group at end of input?  This is the part of the regex
at line 53 after the lazy capture group. -/
def remTail (r : List Char) : Bool :=
  decide (r = []) || decide (r = ".git".data)
    || decide (r.head? = some '#') || List.isPrefixOf ".git#".data r

/-- Lazy capture of the regex at line 53: the shortest nonempty slash-free
prefix whose remainder satisfies `remTail`. -/
def matchCore : List Char → Option (List Char)
  | [] => none
  | c :: rs =>
    if c = '/' then none
    else if remTail rs then some [c]
    else (matchCore rs).map (fun l => c :: l)

/-- Embedding of `re.search` for the pattern at line 53: the leftmost slash
at which `matchCore` succeeds on the remainder wins. -/
def gitSearch : List Char → Option (List Char)
  | [] => none
  | c :: rs =>
    if c = '/' then
      match matchCore rs with
      | some g => some g
      | none => gitSearch rs
    else gitSearch rs

/-- Version-comparison operator characters of the split at line 49. -/
def verop (c : Char) : Bool :=
  c = '>' || c = '<' || c = '=' || c = '!' || c = '~'

/-- Embedding of the pypi-name normalisation at lines 49-50: cut at the first
extras bracket, cut at the first version operator, then replace hyphens by
underscores and underscores by hyphens (net effect: both become hyphens). -/
def pypi_name (spec : List Char) : List Char :=
  (((spec.takeWhile (fun c => c ≠ '[')).takeWhile (fun c => !verop c)).map
      (fun c => if c = '-' then '_' else c)).map
    (fun c => if c = '_' then '-' else c)

/-- Path components as pathlib keeps them: split on slashes, dropping empty
components and single-dot components. -/
def path_parts (p : List Char) : List (List Char) :=
  (p.splitOn '/').filter (fun comp => !comp.isEmpty && comp ≠ ".".data)

/-- Final path component, as `Path(...).name`. -/
def path_name (p : List Char) : List Char :=
  ((path_parts p).getLast?).getD []

/-- Stem of a file name: drop the last dot-suffix unless the only dot is the
leading character, as `Path(...).stem`. -/
def stem_of_name (n : List Char) : List Char :=
  match (n.reverse).dropWhile (fun c => c ≠ '.') with
  | [] => n
  | _ :: post => if post = [] then n else post.reverse

/-- Embedding of `Path(package_spec).stem` used at line 58. -/
def path_stem (p : List Char) : List Char :=
  stem_of_name (path_name p)

/-- Outcome of the optional local-file probe of `extract_server_name`:
the caller passed a path that does not exist, a readable file with the
given text, or a file whose read raises (for example a decode error). -/
inductive FileSt
  | notExists
  | readable (content : List Char)
  | unreadable

/-- Embedding of `extract_server_name` (src/scripts/mcp_config.py lines
32-60).  Returns the derived name together with a flag recording whether the
warning at line 44 was printed.  The file parameter mirrors the optional
`filepath` argument together with the observable filesystem outcome. -/
def extract_server_name (package_spec : List Char) (filepath : Option FileSt) :
    List Char × Bool :=
  let viaFile : Option (List Char) × Bool :=
    match filepath with
    | some (FileSt.readable content) => (fastmcp_scan content, false)
    | some FileSt.unreadable => (none, true)
    | some FileSt.notExists => (none, false)
    | none => (none, false)
  match viaFile with
  | (some nm, w) => (nm, w)
  | (none, w) =>
    let fallback : List Char :=
      if detect_package_type package_spec = "pypi" then pypi_name package_spec
      else if List.isPrefixOf "git+".data package_spec then
        match gitSearch package_spec with
        | some g => g
        | none => package_spec
      else if package_spec.contains '/' then path_stem package_spec
      else package_spec
    (fallback, w)

/-- JSON values as the configuration file uses them: strings, arrays and
objects.  Objects are insertion-ordered association lists, mirroring Python
dictionaries. -/
inductive Json
  | str : List Char → Json
  | arr : List Json → Json
  | obj : List (List Char × Json) → Json

/-- Lookup of a key in a Python dictionary. -/
def objLookup : List (List Char × Json) → List Char → Option Json
  | [], _ => none
  | (k, v) :: rest, key => if k = key then some v else objLookup rest key

/-- Assignment to a key in a Python dictionary: update in place when the key
exists, otherwise append at the end. -/
def objSet : List (List Char × Json) → List Char → Json → List (List Char × Json)
  | [], key, val => [(key, val)]
  | (k, v) :: rest, key, val =>
    if k = key then (k, val) :: rest else (k, v) :: objSet rest key val

/-- Python membership test `key in value`: key lookup on a dictionary,
element equality on a list, substring test on a string. -/
def json_has_key_py : Json → List Char → Except Unit Bool
  | Json.obj kvs, k => Except.ok (objLookup kvs k).isSome
  | Json.arr xs, k =>
    Except.ok (xs.any (fun j => match j with | Json.str s => s == k | _ => false))
  | Json.str s, k => Except.ok (containsSeq k s)

/-- Python subscript read `value[key]` with a string key: succeeds only on a
dictionary holding the key; a missing key raises KeyError and a non-dictionary
raises TypeError, both modelled as `Except.error`. -/
def json_get_py : Json → List Char → Except Unit Json
  | Json.obj kvs, k =>
    match objLookup kvs k with
    | some v => Except.ok v
    | none => Except.error ()
  | Json.str _, _ => Except.error ()
  | Json.arr _, _ => Except.error ()

/-- Python subscript assignment `value[key] = v` with a string key: succeeds
only on a dictionary; anything else raises TypeError. -/
def json_set_py : Json → List Char → Json → Except Unit Json
  | Json.obj kvs, k, v => Except.ok (Json.obj (objSet kvs k v))
  | Json.str _, _, _ => Except.error ()
  | Json.arr _, _, _ => Except.error ()

/-- State of the configuration file: absent, present but not valid JSON, or
present with the given parsed document. -/
inductive FileContent
  | missing
  | malformed
  | doc (d : Json)

/-- The default document written when the file does not exist (line 95). -/
def seedConfig : Json := Json.obj [("mcpServers".data, Json.obj [])]

/-- Embedding of lines 93-100 of `create_or_update_config`: when the file is
missing, parent directories are created and the default document is written
to storage before loading; then the file is read and parsed, a parse failure
surfacing as an exception.  Returns the file state after this step together
with the parse outcome. -/
def code_load_phase (file : FileContent) : FileContent × Except Unit Json :=
  match file with
  | FileContent.missing => (FileContent.doc seedConfig, Except.ok seedConfig)
  | FileContent.malformed => (FileContent.malformed, Except.error ())
  | FileContent.doc d => (FileContent.doc d, Except.ok d)

/-- The metadata object computed at lines 122-127. -/
def freshMetadata (package_spec : List Char) : Json :=
  Json.obj
    [("package_type".data, Json.str (detect_package_type package_spec).data),
     ("package_spec".data, Json.str package_spec),
     ("generated_by".data, Json.str "mcp_config.py".data),
     ("bootstrap_version".data, Json.str "1.2.0".data)]

/-- The launch record assigned at lines 115-118: command "bash" and the
argument list of bootstrap script path, package spec and extra arguments. -/
def buildRecord (bootstrap_script package_spec : List Char)
    (server_args : List (List Char)) : Json :=
  Json.obj
    [("command".data, Json.str "bash".data),
     ("args".data, Json.arr ((bootstrap_script :: package_spec :: server_args).map Json.str))]

/-- The launch record together with the metadata the code attaches to it. -/
def fullRecord (bootstrap_script package_spec : List Char)
    (server_args : List (List Char)) : Json :=
  Json.obj
    [("command".data, Json.str "bash".data),
     ("args".data, Json.arr ((bootstrap_script :: package_spec :: server_args).map Json.str)),
     ("_metadata".data, freshMetadata package_spec)]

/-- Embedding of lines 102-127 of `create_or_update_config`: ensure the
`mcpServers` key, assign the launch record under the server name, then run
the metadata guard of line 121 and attach fresh metadata when it fires.
Subscript errors on non-dictionary values surface as exceptions, as the
TypeErrors the Python would raise. -/
def upsert_phase (config_data : Json) (server_name package_spec : List Char)
    (server_args : List (List Char)) (bootstrap_script : List Char) :
    Except Unit Json := do
  let hasMs ← json_has_key_py config_data "mcpServers".data
  let c1 ← if hasMs then pure config_data
           else json_set_py config_data "mcpServers".data (Json.obj [])
  let rec0 := buildRecord bootstrap_script package_spec server_args
  let ms ← json_get_py c1 "mcpServers".data
  let ms1 ← json_set_py ms server_name rec0
  let c2 ← json_set_py c1 "mcpServers".data ms1
  let msNow ← json_get_py c2 "mcpServers".data
  let hasName ← json_has_key_py msNow server_name
  let needMeta ←
    if hasName then do
      let recNow ← json_get_py msNow server_name
      let hasMeta ← json_has_key_py recNow "_metadata".data
      pure (!hasMeta)
    else pure true
  if needMeta then do
    let msX ← json_get_py c2 "mcpServers".data
    let recX ← json_get_py msX server_name
    let recY ← json_set_py recX "_metadata".data (freshMetadata package_spec)
    let msY ← json_set_py msX server_name recY
    json_set_py c2 "mcpServers".data msY
  else pure c2

/-- Embedding of `create_or_update_config` (src/scripts/mcp_config.py lines
85-140).  The bootstrap script path, resolved by `get_bootstrap_script_path`
in the source, is passed in as a value.  Any exception is caught at line 138:
the function reports failure and leaves the file in whatever state the load
step produced; on success the temporary-file write and atomic rename of
lines 129-135 replace the file with the new document. -/
def create_or_update_config (server_name package_spec : List Char)
    (file : FileContent) (server_args : List (List Char))
    (bootstrap_script : List Char) : Bool × FileContent :=
  let (file1, parsed) := code_load_phase file
  match parsed with
  | Except.error _ => (false, file1)
  | Except.ok config_data =>
    match upsert_phase config_data server_name package_spec server_args bootstrap_script with
    | Except.error _ => (false, file1)
    | Except.ok c3 => (true, FileContent.doc c3)

/-- Parent directory of a path, as `Path(...).parent`: drop the final
component; a bare file name has parent dot. -/
def dirOf (p : List Char) : List Char :=
  let r := (((p.reverse).dropWhile (fun c => c ≠ '/')).drop 1).reverse
  if r.isEmpty then ".".data else r

/-- Filesystem view for the persist step: the destination file and an
optional temporary file tagged with the directory it lives in. -/
structure FsState where
  dest : FileContent
  tmp : Option (List Char × Json)

/-- Embedding of the persist step (src/scripts/mcp_config.py lines 129-135)
with failure injection.  Step 0 opens a named temporary file in the parent
directory of the destination and serialises the document into it; step 1
atomically renames the temporary file over the destination.  `failAt`
injects an exception at the given step, which line 138 catches, reporting
failure; the destination is only ever touched by the atomic rename. -/
def persist_phase (cfg : Json) (destPath : List Char) (s : FsState)
    (failAt : Option Nat) : Bool × FsState :=
  if failAt = some 0 then (false, s)
  else
    let s1 : FsState := { dest := s.dest, tmp := some (dirOf destPath, cfg) }
    if failAt = some 1 then (false, s1)
    else (true, { dest := FileContent.doc cfg, tmp := none })

/-- Result of a successful command-line parse (src/scripts/mcp_config.py
lines 169-202), the default configuration path already applied. -/
structure ParsedArgs where
  package_spec : List Char
  server_name : Option (List Char)
  config_file_name : List Char
  server_args : List (List Char)

/-- The default configuration path of lines 197-200, with the home directory
taken as a parameter standing for `os.path.expanduser`. -/
def default_config_path (home : List Char) : List Char :=
  home ++ "/Library/Application Support/Claude/claude_desktop_config.json".data

/-- Embedding of the while loop at lines 181-194.  A flag with a following
value consumes both; any other token, including a value-taking flag that is
the final token, prints an unknown-argument message and exits with code 1. -/
def parse_loop : List (List Char) → Option (List Char) → Option (List Char) →
    List (List Char) → Except Nat (Option (List Char) × Option (List Char) × List (List Char))
  | [], n, c, sa => Except.ok (n, c, sa)
  | [_], _, _, _ => Except.error 1
  | f :: v :: rest, n, c, sa =>
    if f = "--name".data then parse_loop rest (some v) c sa
    else if f = "--config".data then parse_loop rest n (some v) sa
    else if f = "--args".data then parse_loop rest n c (v.splitOn ',')
    else Except.error 1

/-- Embedding of `parse_args` (src/scripts/mcp_config.py lines 169-202):
usage plus exit for an empty argument list (code 1) or an explicit help flag
(code 0); otherwise the first token is the package spec and the remaining
tokens run through the option loop. -/
def parse_args (home : List Char) (argv : List (List Char)) : Except Nat ParsedArgs :=
  if argv.isEmpty || argv.contains "--help".data || argv.contains "-h".data then
    Except.error (if argv.isEmpty then 1 else 0)
  else
    match argv with
    | [] => Except.error 1
    | spec :: rest =>
      match parse_loop rest none none [] with
      | Except.error code => Except.error code
      | Except.ok (n, c, sa) =>
        Except.ok
          { package_spec := spec
            server_name := n
            config_file_name := c.getD (default_config_path home)
            server_args := sa }

/-- Source kinds of the specification (spec section 4.1). -/
inductive SpecKind
  | index
  | versionControl
  | rawHostedFile
  | localPath
deriving DecidableEq

/-- Modelled from the spec: the hosted-code-viewer URL test of rule 2 of
section 4.1 (the `github_raw` branch of the classifier, absent from the
`src/` snapshot and exercised only by its tests): an http or https URL whose
host is a known code-hosting domain and whose path has a blob-style or
raw-style segment. -/
def isHostedViewerUrl (s : List Char) : Bool :=
  let afterScheme : Option (List Char) :=
    if List.isPrefixOf "https://".data s then some (s.drop 8)
    else if List.isPrefixOf "http://".data s then some (s.drop 7)
    else none
  match afterScheme with
  | none => false
  | some rest =>
    (["github.com".data, "gitlab.com".data, "bitbucket.org".data].any
        (fun h => List.isPrefixOf (h ++ ['/']) rest)) &&
    (containsSeq "/blob/".data rest || containsSeq "/raw/".data rest)

/-- Modelled from the spec: the four-kind ordered classifier of section 4.1
(`classify`), whose raw-hosted-file rule is missing from the `src/` snapshot:
version-control prefix first, then hosted-viewer URL, then local path
markers, then package index. -/
def specClassify (s : List Char) : SpecKind :=
  if List.isPrefixOf "git+".data s then SpecKind.versionControl
  else if isHostedViewerUrl s then SpecKind.rawHostedFile
  else if List.isPrefixOf "/".data s || List.isPrefixOf "./".data s
       || List.isPrefixOf "../".data s || List.isPrefixOf "-e".data s then
    SpecKind.localPath
  else SpecKind.index

/-- Modelled from the spec: the disposable-suffix detector of section 4.1
(`deriveExecutableName` patterns): the final hyphen-separated segment is a
short mixed letters-and-digits tag, a purely numeric run, or a short bare
alphabetic word; when one matches, the name with the suffix stripped is
returned. -/
def stripDisposableSuffix (base : List Char) : Option (List Char) :=
  match (base.splitOn '-').reverse with
  | [] => none
  | [_] => none
  | t :: rest =>
    let isTag := decide (2 ≤ t.length) && decide (t.length ≤ 12)
        && t.all (fun c => c.isAlpha || c.isDigit)
        && t.any Char.isAlpha && t.any Char.isDigit
    let isNum := !t.isEmpty && t.all Char.isDigit
    let isShortWord := decide (1 ≤ t.length) && decide (t.length ≤ 4)
        && t.all Char.isAlpha
    if isTag || isNum || isShortWord then
      some (List.intercalate ['-'] rest.reverse)
    else none

/-- Modelled from the spec: `deriveExecutableName` of section 4.1, absent
from the `src/` snapshot (only its tests are there).  Local and
raw-hosted-file specs yield nothing; a version-control spec is reduced to
its final path segment without `.git` or fragment; an index spec is reduced
to its bare name without extras bracket or version constraint; then the
disposable-suffix detector runs. -/
def deriveExecutableName (spec : List Char) : Option (List Char) :=
  match specClassify spec with
  | SpecKind.localPath => none
  | SpecKind.rawHostedFile => none
  | SpecKind.versionControl =>
    let noFrag := spec.takeWhile (fun c => c ≠ '#')
    let seg := ((noFrag.splitOn '/').getLast?).getD noFrag
    let seg2 := if List.isSuffixOf ".git".data seg
                then seg.take (seg.length - 4) else seg
    stripDisposableSuffix seg2
  | SpecKind.index =>
    stripDisposableSuffix
      ((spec.takeWhile (fun c => c ≠ '[')).takeWhile (fun c => !verop c))

/-- Reader for the `package_spec` field of the metadata of the entry under
the given server name in a configuration file state. -/
def metaPackageSpec (f : FileContent) (n : List Char) : Option Json :=
  match f with
  | FileContent.doc (Json.obj kvs) =>
    (match objLookup kvs "mcpServers".data with
     | some (Json.obj ms) =>
       (match objLookup ms n with
        | some (Json.obj entry) =>
          (match objLookup entry "_metadata".data with
           | some (Json.obj meta) => objLookup meta "package_spec".data
           | _ => none)
        | _ => none)
     | _ => none)
  | _ => none

example : specClassify "https://github.com/user/repo/blob/main/server.py".data
    = SpecKind.rawHostedFile := by decide
example : specClassify "https://gitlab.com/user/project/-/raw/main/file.py".data
    = SpecKind.rawHostedFile := by decide
example : specClassify "mcp-server-filesystem".data = SpecKind.index := by decide
example : deriveExecutableName "test-mcp-server-ap25092201".data
    = some "test-mcp-server".data := by decide
example : deriveExecutableName "my-package-name-test".data
    = some "my-package-name".data := by decide
example : deriveExecutableName "package-name-123".data
    = some "package-name".data := by decide
example : deriveExecutableName "simple-package".data = none := by decide
example : deriveExecutableName "git+https://github.com/user/test-mcp-server-ap25092201.git".data
    = some "test-mcp-server".data := by decide
example : deriveExecutableName "test-mcp-server-ap25092201==1.0.0".data
    = some "test-mcp-server".data := by decide
example : deriveExecutableName "./local/path".data = none := by decide

example : detect_package_type "git+https://github.com/u/r.git".data = "git" := by decide
example : detect_package_type "./x.py".data = "local" := by decide
example : detect_package_type "".data = "pypi" := by decide
example : (extract_server_name "mcp-server-database==1.2.0".data none).1
    = "mcp-server-database".data := by decide
example : (extract_server_name "git+https://github.com/user/repo.git#v1.0.0".data none).1
    = "repo".data := by decide
example : (extract_server_name "./src/my_server.py".data none).1
    = "my_server".data := by decide
example : (extract_server_name "https://example.com/file".data none).1
    = "https://example.com/file".data := by decide

lemma matchCore_seg : ∀ (seg frag : List Char), seg ≠ [] →
    (∀ c ∈ seg, c ≠ '/' ∧ c ≠ '#' ∧ c ≠ '.') →
    matchCore (seg ++ '.' :: 'g' :: 'i' :: 't' :: '#' :: frag) = some seg := by
  intro seg
  induction seg with
  | nil => intro frag h1 _; exact absurd rfl h1
  | cons c rest ih =>
    intro frag _ h2
    obtain ⟨hc1, hc2, hc3⟩ := h2 c (List.mem_cons_self c rest)
    cases rest with
    | nil =>
      simp [matchCore, remTail, List.isPrefixOf, hc1]
    | cons d rest2 =>
      obtain ⟨hd1, hd2, hd3⟩ := h2 d (by simp)
      have hrem : remTail (d :: (rest2 ++ '.' :: 'g' :: 'i' :: 't' :: '#' :: frag)) = false := by
        simp [remTail, List.isPrefixOf, hd2, hd3, Ne.symm hd3]
      have ihh := ih frag (List.cons_ne_nil d rest2)
        (fun e he => h2 e (List.mem_cons_of_mem c he))
      simp only [List.cons_append] at ihh ⊢
      rw [matchCore, if_neg hc1, hrem]
      simp [ihh]

/-- C8: every spec beginning with the version-control marker classifies as
"git" whatever follows, and for such specs built from a slash-free,
hash-free, dot-free repository segment the derived name is that segment,
the `.git` suffix and the `#` fragment being stripped. -/
theorem c8_version_control_classify_and_name :
    (∀ rest : List Char, detect_package_type ("git+".data ++ rest) = "git") ∧
    (∀ seg frag : List Char, seg ≠ [] →
      (∀ c ∈ seg, c ≠ '/' ∧ c ≠ '#' ∧ c ≠ '.') →
      (extract_server_name
          ("git+https://github.com/user/".data ++ seg ++ ".git#".data ++ frag) none).1
        = seg) := by
  constructor
  · intro rest
    simp [detect_package_type, List.isPrefixOf]
  · intro seg frag h1 h2
    have hm := matchCore_seg seg frag h1 h2
    simp [extract_server_name, detect_package_type, List.isPrefixOf, gitSearch,
      matchCore, remTail, hm]

/-- C8 witness: scenario A, the spec git+https github user repo with tag
fragment v1.0.0 classifies as "git" and derives the name "repo". -/
theorem c8_witness :
    detect_package_type ("git+".data ++ "https://github.com/user/repo.git#v1.0.0".data)
      = "git" ∧
    (extract_server_name
        ("git+https://github.com/user/".data ++ "repo".data ++ ".git#".data ++ "v1.0.0".data)
        none).1 = "repo".data :=
  ⟨c8_version_control_classify_and_name.1 "https://github.com/user/repo.git#v1.0.0".data,
   c8_version_control_classify_and_name.2 "repo".data "v1.0.0".data (by decide) (by decide)⟩

/-- C10: every spec whose first two characters are the editable-install
marker classifies as "local", whatever follows, so the bare package-like
string -experimental-package is local and never "pypi". -/
theorem c10_editable_marker_is_local :
    (∀ rest : List Char, detect_package_type ("-e".data ++ rest) = "local") ∧
    detect_package_type "-experimental-package".data = "local" ∧
    detect_package_type "-experimental-package".data ≠ "pypi" := by
  refine ⟨?_, by decide, by decide⟩
  intro rest
  simp [detect_package_type, List.isPrefixOf]

/-- C2: at the hosted blob URL of scenario B the code classifies "pypi",
not a raw-hosted-file kind, and derives the whole URL with underscores
hyphenated, not "my-server"; this contradicts the test suite of the
repository (test_github_raw_url, test_github_raw_python_file). -/
theorem c2_blob_url_divergence :
    detect_package_type "https://github.com/user/repo/blob/main/my_server.py".data
      = "pypi" ∧
    (extract_server_name "https://github.com/user/repo/blob/main/my_server.py".data none).1
      = "https://github.com/user/repo/blob/main/my-server.py".data ∧
    (extract_server_name "https://github.com/user/repo/blob/main/my_server.py".data none).1
      ≠ "my-server".data := by
  exact ⟨by decide, by decide, by decide⟩

/-- C1: metadata is not preserved across upserts: after registering the
name srv from spec pkg-one, a second upsert of srv from pkg-two leaves the
entry metadata carrying pkg-two, because the assignment at line 115
replaces the whole record before the guard at line 121 runs. -/
theorem c1_metadata_overwritten :
    metaPackageSpec
        (create_or_update_config "srv".data "pkg-one".data FileContent.missing [] "B".data).2
        "srv".data
      = some (Json.str "pkg-one".data) ∧
    metaPackageSpec
        (create_or_update_config "srv".data "pkg-two".data
            (create_or_update_config "srv".data "pkg-one".data FileContent.missing []
                "B".data).2
            [] "B".data).2
        "srv".data
      = some (Json.str "pkg-two".data) ∧
    some (Json.str "pkg-two".data) ≠ some (Json.str "pkg-one".data) := by
  refine ⟨rfl, rfl, ?_⟩
  intro h
  have h2 := Option.some.inj h
  have h3 := Json.str.inj h2
  exact absurd h3 (by decide)

lemma objLookup_objSet_self (l : List (List Char × Json)) (k : List Char) (v : Json) :
    objLookup (objSet l k v) k = some v := by
  induction l with
  | nil => simp [objSet, objLookup]
  | cons p rest ih =>
    obtain ⟨k', v'⟩ := p
    by_cases h : k' = k
    · simp [objSet, objLookup, h]
    · simp [objSet, objLookup, h, ih]

lemma objLookup_objSet_ne (l : List (List Char × Json)) (k : List Char) (v : Json)
    (k' : List Char) (h : k' ≠ k) : objLookup (objSet l k v) k' = objLookup l k' := by
  induction l with
  | nil => simp [objSet, objLookup, Ne.symm h]
  | cons p rest ih =>
    obtain ⟨k0, v0⟩ := p
    by_cases h0 : k0 = k
    · subst h0
      simp [objSet, objLookup, Ne.symm h]
    · simp [objSet, objLookup, h0, ih]

lemma objSet_objSet_same (l : List (List Char × Json)) (k : List Char) (v w : Json) :
    objSet (objSet l k v) k w = objSet l k w := by
  induction l with
  | nil => simp [objSet]
  | cons p rest ih =>
    obtain ⟨k0, v0⟩ := p
    by_cases h0 : k0 = k
    · simp [objSet, h0]
    · simp [objSet, h0, ih]

/-- C4 counterexample: the load step on a missing configuration file does
modify storage: it leaves the file holding the seed document rather than
still missing, contradicting the claim that the load step itself writes
nothing. -/
theorem c4_load_writes_counterexample :
    code_load_phase FileContent.missing
      = (FileContent.doc seedConfig, Except.ok seedConfig) ∧
    FileContent.doc seedConfig ≠ FileContent.missing := by
  refine ⟨rfl, ?_⟩
  intro h
  exact FileContent.noConfusion h

/-- C4 amended: when the configuration file does not exist, the load step
seeds storage with the default document and returns that document; the full
create-or-update run then leaves the file holding exactly one server
entry. -/
theorem c4_amended_seed_then_single_entry :
    code_load_phase FileContent.missing
      = (FileContent.doc seedConfig, Except.ok seedConfig) ∧
    ∀ (n spec bs : List Char) (sargs : List (List Char)),
      create_or_update_config n spec FileContent.missing sargs bs
        = (true, FileContent.doc
            (Json.obj [("mcpServers".data, Json.obj [(n, fullRecord bs spec sargs)])])) := by
  refine ⟨rfl, ?_⟩
  intro n spec bs sargs
  simp [create_or_update_config, code_load_phase, upsert_phase, seedConfig,
    json_has_key_py, json_get_py, json_set_py, objLookup, objSet,
    buildRecord, fullRecord, freshMetadata, Bind.bind, Except.bind, pure, Except.pure]

/-- C7 counterexample: the document with top-level key mcpServers bound to
the string "x" parses successfully, yet the round trip fails: the update
reports failure and leaves the document unchanged, so no document
containing the new entry results. -/
theorem c7_roundtrip_counterexample :
    create_or_update_config "srv".data "pkg".data
        (FileContent.doc (Json.obj [("mcpServers".data, Json.str "x".data)])) [] "B".data
      = (false, FileContent.doc (Json.obj [("mcpServers".data, Json.str "x".data)])) := by
  rfl

/-- C7 amended: for every parsed document whose top-level server map, when
present, is an object, the round trip succeeds and yields the document with
the new name bound to the built record, every other server entry unchanged
and every other top-level key unchanged. -/
theorem c7_roundtrip_amended :
    ∀ (kvs ms : List (List Char × Json)) (name spec bs : List Char)
      (sargs : List (List Char)),
      (objLookup kvs "mcpServers".data = some (Json.obj ms) ∨
        (objLookup kvs "mcpServers".data = none ∧ ms = [])) →
      (create_or_update_config name spec (FileContent.doc (Json.obj kvs)) sargs bs
          = (true, FileContent.doc (Json.obj (objSet kvs "mcpServers".data
              (Json.obj (objSet ms name (fullRecord bs spec sargs))))))) ∧
      objLookup (objSet ms name (fullRecord bs spec sargs)) name
        = some (fullRecord bs spec sargs) ∧
      (∀ k, k ≠ name →
        objLookup (objSet ms name (fullRecord bs spec sargs)) k = objLookup ms k) ∧
      (∀ k, k ≠ "mcpServers".data →
        objLookup (objSet kvs "mcpServers".data
            (Json.obj (objSet ms name (fullRecord bs spec sargs)))) k
          = objLookup kvs k) := by
  intro kvs ms name spec bs sargs h
  refine ⟨?_, objLookup_objSet_self ms name _,
    fun k hk => objLookup_objSet_ne ms name _ k hk,
    fun k hk => objLookup_objSet_ne kvs "mcpServers".data _ k hk⟩
  rcases h with h | ⟨h, hms⟩
  · simp [create_or_update_config, code_load_phase, upsert_phase,
      json_has_key_py, json_get_py, json_set_py, h,
      objLookup_objSet_self, objSet_objSet_same,
      buildRecord, fullRecord, freshMetadata, objSet, objLookup,
      Bind.bind, Except.bind, pure, Except.pure]
  · subst hms
    simp [create_or_update_config, code_load_phase, upsert_phase,
      json_has_key_py, json_get_py, json_set_py, h,
      objLookup_objSet_self, objSet_objSet_same,
      buildRecord, fullRecord, freshMetadata, objSet, objLookup,
      Bind.bind, Except.bind, pure, Except.pure]

/-- C7 witness: on a document holding one unrelated top-level key and one
prior server entry, inserting a new entry succeeds, and the prior server
entry is still found unchanged afterwards. -/
theorem c7_roundtrip_witness :
    create_or_update_config "new".data "pkg".data
        (FileContent.doc (Json.obj
          [("existing".data, Json.str "e".data),
           ("mcpServers".data, Json.obj [("old".data, Json.str "o".data)])]))
        [] "B".data
      = (true, FileContent.doc (Json.obj (objSet
          [("existing".data, Json.str "e".data),
           ("mcpServers".data, Json.obj [("old".data, Json.str "o".data)])]
          "mcpServers".data
          (Json.obj (objSet [("old".data, Json.str "o".data)] "new".data
            (fullRecord "B".data "pkg".data [])))))) ∧
    objLookup (objSet [("old".data, Json.str "o".data)] "new".data
        (fullRecord "B".data "pkg".data [])) "old".data
      = objLookup [("old".data, Json.str "o".data)] "old".data :=
  have h := c7_roundtrip_amended
    [("existing".data, Json.str "e".data),
     ("mcpServers".data, Json.obj [("old".data, Json.str "o".data)])]
    [("old".data, Json.str "o".data)]
    "new".data "pkg".data "B".data [] (Or.inl rfl)
  ⟨h.1, h.2.2.1 "old".data (by decide)⟩

/-- C5 counterexample: with the value-taking flag as the final token the
parser does not pass an undefined value through: it rejects the invocation,
reporting the token as an unknown argument and exiting with code 1,
because the loop condition at line 183 bounds-checks the index. -/
theorem c5_trailing_flag_counterexample :
    parse_args "HOME".data ["pkg".data, "--name".data] = Except.error 1 := rfl

/-- C5 amended: whenever one of the value-taking flags is the last
command-line token, the parser reports it as an unknown argument and exits
with code 1; no undefined value is passed through. -/
theorem c5_amended_trailing_flag_rejected :
    ∀ (home spec flag : List Char),
      (flag = "--name".data ∨ flag = "--config".data ∨ flag = "--args".data) →
      spec ≠ "--help".data → spec ≠ "-h".data →
      parse_args home [spec, flag] = Except.error 1 := by
  intro home spec flag hf h1 h2
  have e1 : ("--help".data == spec) = false := beq_eq_false_iff_ne.mpr (Ne.symm h1)
  have e2 : ("-h".data == spec) = false := beq_eq_false_iff_ne.mpr (Ne.symm h2)
  rcases hf with rfl | rfl | rfl <;>
    simp [parse_args, parse_loop, List.contains, List.elem, e1, e2]

/-- C5 witness: the spec token pkg followed by a bare value-taking flag is
rejected with exit code 1. -/
theorem c5_witness :
    parse_args "HOME".data ["pkg".data, "--config".data] = Except.error 1 :=
  c5_amended_trailing_flag_rejected "HOME".data "pkg".data "--config".data
    (Or.inr (Or.inl rfl)) (by decide) (by decide)

/-- C6: the persist step writes the temporary file only in the parent
directory of the destination, reports failure when any step fails, and
leaves the destination either in its prior state or holding the new
document, never anything else. -/
theorem c6_persist_atomic_all_or_nothing :
    ∀ (cfg : Json) (destPath : List Char) (s : FsState) (failAt : Option Nat),
      s.tmp = none →
      ((persist_phase cfg destPath s failAt).2.dest = s.dest ∨
        (persist_phase cfg destPath s failAt).2.dest = FileContent.doc cfg) ∧
      ((failAt = some 0 ∨ failAt = some 1) →
        (persist_phase cfg destPath s failAt).1 = false) ∧
      (∀ d c, (persist_phase cfg destPath s failAt).2.tmp = some (d, c) →
        d = dirOf destPath ∧ c = cfg) ∧
      ((persist_phase cfg destPath s failAt).1 = true →
        (persist_phase cfg destPath s failAt).2.dest = FileContent.doc cfg) := by
  intro cfg destPath s failAt hs
  rcases failAt with _ | n
  · simp [persist_phase]
  · rcases n with _ | n
    · simp [persist_phase, hs]
    · rcases n with _ | n
      · simp [persist_phase]
      · simp [persist_phase]

/-- C6 witness: with a rename failure injected, persisting the seed
document over a missing destination reports failure and the destination is
left in its prior state or fully new. -/
theorem c6_witness :
    (persist_phase seedConfig "/a/b.json".data
        { dest := FileContent.missing, tmp := none } (some 1)).1 = false ∧
    ((persist_phase seedConfig "/a/b.json".data
        { dest := FileContent.missing, tmp := none } (some 1)).2.dest
        = FileContent.missing ∨
      (persist_phase seedConfig "/a/b.json".data
          { dest := FileContent.missing, tmp := none } (some 1)).2.dest
        = FileContent.doc seedConfig) :=
  have h := c6_persist_atomic_all_or_nothing seedConfig "/a/b.json".data
    { dest := FileContent.missing, tmp := none } (some 1) rfl
  ⟨h.2.1 (Or.inr rfl), h.1⟩

lemma takeUntilQuote_closes : ∀ (name post : List Char),
    (∀ c ∈ name, c ≠ quoteD ∧ c ≠ quoteS) →
    takeUntilQuote (name ++ quoteD :: post) = some name := by
  intro name
  induction name with
  | nil => intro post _; simp [takeUntilQuote]
  | cons c rest ih =>
    intro post h
    obtain ⟨hc1, hc2⟩ := h c (List.mem_cons_self c rest)
    simp [takeUntilQuote, hc1, hc2]
    exact ih post (fun e he => h e (List.mem_cons_of_mem c he))

lemma fastmcp_scan_finds : ∀ (name post : List Char),
    (∀ c ∈ name, c ≠ quoteD ∧ c ≠ quoteS) →
    fastmcp_scan ("mcp = FastMCP(".data ++ quoteD :: name ++ quoteD :: post) = some name := by
  intro name post h
  have ht := takeUntilQuote_closes name post h
  simp [fastmcp_scan, fmPat, List.isPrefixOf, ht]

/-- C9 counterexample: a supplied path that does not exist is a read
failure for which no warning is emitted: the probe is skipped silently and
the name falls back to the spec-based rules. -/
theorem c9_missing_file_no_warning_counterexample :
    extract_server_name "./missing.py".data (some FileSt.notExists)
      = ("missing".data, false) := by
  decide

/-- C9 amended: a readable resource whose text holds the FastMCP
constructor-call pattern yields the captured name verbatim whatever the
spec; a read that raises is caught with a warning and falls through to the
spec-based rules; a missing file is skipped silently, also falling through;
the function is total, never raising. -/
theorem c9_amended_fastmcp_and_fallthrough :
    (∀ (spec name post : List Char),
      (∀ c ∈ name, c ≠ quoteD ∧ c ≠ quoteS) →
      extract_server_name spec
          (some (FileSt.readable
            ("mcp = FastMCP(".data ++ quoteD :: name ++ quoteD :: post)))
        = (name, false)) ∧
    (∀ spec : List Char,
      extract_server_name spec (some FileSt.unreadable)
        = ((extract_server_name spec none).1, true)) ∧
    (∀ spec : List Char,
      extract_server_name spec (some FileSt.notExists)
        = extract_server_name spec none) := by
  refine ⟨?_, fun spec => rfl, fun spec => rfl⟩
  intro spec name post h
  have hs := fastmcp_scan_finds name post h
  simp at hs
  simp [extract_server_name, hs]

/-- C9 witness: scenario C, a readable file declaring FastMCP of
my-awesome-server yields that name whatever the spec says. -/
theorem c9_witness :
    extract_server_name "ignored-spec".data
        (some (FileSt.readable
          ("mcp = FastMCP(".data ++ quoteD :: "my-awesome-server".data
            ++ quoteD :: ")".data)))
      = ("my-awesome-server".data, false) :=
  c9_amended_fastmcp_and_fallthrough.1 "ignored-spec".data "my-awesome-server".data
    ")".data (by decide)

/-- C3: the executable-name derivation strips the mixed alphanumeric tag
from pkg-ab12345678, yields nothing for mcp-server-filesystem, and yields
nothing for every spec classified local or raw-hosted-file. -/
theorem c3_executable_name_derivation :
    deriveExecutableName "pkg-ab12345678".data = some "pkg".data ∧
    deriveExecutableName "mcp-server-filesystem".data = none ∧
    ∀ s : List Char,
      (specClassify s = SpecKind.localPath ∨ specClassify s = SpecKind.rawHostedFile) →
      deriveExecutableName s = none := by
  refine ⟨by decide, by decide, ?_⟩
  intro s h
  rcases h with h | h <;> simp [deriveExecutableName, h]

/-- C3 witness: the local spec dot-slash local srv.py derives no
executable name. -/
theorem c3_witness :
    deriveExecutableName "./local/srv.py".data = none :=
  c3_executable_name_derivation.2.2 "./local/srv.py".data (Or.inl (by decide))
